import Mathlib

/-!
# Verification of the p2p signaling hub and relay data plane

Shallow embedding of the signaling server (`server/src/main.cpp`), the wire
codec (`common/include/protocol.hpp`, including `base64Encode`/`base64Decode`)
and the client-side relay bookkeeping (`client/src/p2p_client.cpp`).

Conventions of the embedding:
* byte values and character codes are `Nat` (always `< 256` where it matters);
* a WebSocket handle is an abstract `Nat`;
* `std::unordered_map<std::string, ClientInfo>` is an association list
  (`List (String × ClientInfo)`), with `operator[]` as insert-or-assign and
  `erase` as key filtering; iteration order of the C++ container is
  unspecified, the list order stands in for it;
* `std::set<RelayPair>` is a `List RelayPair` on which `insert` adds an
  element only when no equivalent (w.r.t. the C++ comparator) element is
  present and `erase` removes the equivalent elements;
* each handler is a pure function from the server state (and the identity of
  the inbound connection) to the new state plus the list of
  `(websocket, message)` sends it performs;
* a parsed outer JSON object is a finite list of string-valued fields
  (`JsonObj`); `j.value(key, default)` is `jval`.
-/

namespace P2P

/-- `enum class MessageType` from `protocol.hpp`. -/
inductive MessageType where
  | Register
  | PeerList
  | Offer
  | Answer
  | Candidate
  | Connect
  | Error
  | Chat
  | RelayAuth
  | RelayAuthResult
  | RelayConnect
  | RelayData
  | RelayDisconnect
  deriving DecidableEq, Repr

/-- `messageTypeToString` from `protocol.hpp`. -/
def messageTypeToString : MessageType → String
  | .Register => "register"
  | .PeerList => "peer_list"
  | .Offer => "offer"
  | .Answer => "answer"
  | .Candidate => "candidate"
  | .Connect => "connect"
  | .Error => "error"
  | .Chat => "chat"
  | .RelayAuth => "relay_auth"
  | .RelayAuthResult => "relay_auth_result"
  | .RelayConnect => "relay_connect"
  | .RelayData => "relay_data"
  | .RelayDisconnect => "relay_disconnect"

/-- `stringToMessageType` from `protocol.hpp`: the if-chain over the wire
tags; any other string falls through to `Error`. -/
def stringToMessageType (str : String) : MessageType :=
  if str = "register" then .Register
  else if str = "peer_list" then .PeerList
  else if str = "offer" then .Offer
  else if str = "answer" then .Answer
  else if str = "candidate" then .Candidate
  else if str = "connect" then .Connect
  else if str = "error" then .Error
  else if str = "chat" then .Chat
  else if str = "relay_auth" then .RelayAuth
  else if str = "relay_auth_result" then .RelayAuthResult
  else if str = "relay_connect" then .RelayConnect
  else if str = "relay_data" then .RelayData
  else if str = "relay_disconnect" then .RelayDisconnect
  else .Error

/-- `struct SignalingMessage` from `protocol.hpp`. -/
structure SignalingMessage where
  type : MessageType
  from_ : String := ""
  to_ : String := ""
  payload : String := ""
  deriving DecidableEq, Repr

/-- A successfully parsed outer JSON object, restricted to its string-valued
fields (the four envelope fields are strings on the wire). -/
abbrev JsonObj := List (String × String)

/-- `j.value(key, default)` of nlohmann::json: the value at `key`, or the
default when the key is absent. -/
def jval (j : JsonObj) (key dflt : String) : String :=
  match j.find? (fun p => p.1 = key) with
  | some p => p.2
  | none => dflt

/-- `SignalingMessage::fromJson`: the type tag is translated by
`stringToMessageType`, the three string fields are copied from the object
(defaulting to the empty string when absent). -/
def SignalingMessage.fromJson (j : JsonObj) : SignalingMessage :=
  { type := stringToMessageType (jval j "type" "error")
    from_ := jval j "from" ""
    to_ := jval j "to" ""
    payload := jval j "payload" "" }

/-- `struct RelayPair` from `server/src/main.cpp`. -/
structure RelayPair where
  peer1 : String
  peer2 : String
  deriving DecidableEq, Repr

namespace RelayPair

/-- `RelayPair::contains`. -/
def contains (p : RelayPair) (id : String) : Bool :=
  p.peer1 = id || p.peer2 = id

/-- `RelayPair::getOther`. -/
def getOther (p : RelayPair) (id : String) : String :=
  if p.peer1 = id then p.peer2 else p.peer1

/-- `RelayPair::operator<`: `std::tie(a1, a2) < std::tie(b1, b2)`, the
lexicographic comparison of the sorted endpoint pairs (used by
`std::set<RelayPair>`). -/
def lt (p q : RelayPair) : Prop :=
  min p.peer1 p.peer2 < min q.peer1 q.peer2 ∨
  (min p.peer1 p.peer2 = min q.peer1 q.peer2 ∧
   max p.peer1 p.peer2 < max q.peer1 q.peer2)

instance decLt (p q : RelayPair) : Decidable (lt p q) := by
  unfold lt; infer_instance

/-- `RelayPair::operator==`: equality of endpoints in either order (used by
the linear scan in `handleRelayData`). -/
def beq (p q : RelayPair) : Bool :=
  (p.peer1 = q.peer1 && p.peer2 = q.peer2) ||
  (p.peer1 = q.peer2 && p.peer2 = q.peer1)

/-- Equivalence induced by the `std::set` comparator: neither element is
smaller than the other. -/
def equiv (p q : RelayPair) : Prop := ¬ lt p q ∧ ¬ lt q p

instance decEquiv (p q : RelayPair) : Decidable (equiv p q) := by
  unfold equiv; infer_instance

end RelayPair

/-- The relay graph: contents of `std::set<RelayPair> relayConnections_`. -/
abbrev RelayGraph := List RelayPair

/-- `std::set::insert`: a no-op when an element equivalent to `p` under the
comparator is already present, otherwise `p` joins the set. -/
def rgInsert (g : RelayGraph) (p : RelayPair) : RelayGraph :=
  if g.any (fun q => decide (RelayPair.equiv q p)) then g else p :: g

/-- `std::set::erase(value)`: removes the elements equivalent to `p` under
the comparator (at most one exists in a well-formed set). -/
def rgErase (g : RelayGraph) (p : RelayPair) : RelayGraph :=
  g.filter (fun q => !(decide (RelayPair.equiv q p)))

/-- The membership scan of `handleRelayData`: a linear search with
`RelayPair::operator==`. -/
def rgScanEq (g : RelayGraph) (p : RelayPair) : Bool :=
  g.any (fun q => RelayPair.beq q p)

/-- `struct ClientInfo` from `server/src/main.cpp` (the WebSocket handle is
abstracted to a `Nat`). -/
structure ClientInfo where
  ws : Nat
  id : String
  relayAuthenticated : Bool
  deriving DecidableEq, Repr

/-- The `clients_` map: `std::unordered_map<std::string, ClientInfo>`. -/
abbrev ClientMap := List (String × ClientInfo)

/-- `clients_.find(k)` / `clients_.count(k)` support. -/
def mapFind (m : ClientMap) (k : String) : Option ClientInfo :=
  match m.find? (fun p => p.1 = k) with
  | some p => some p.2
  | none => none

/-- `clients_.count(k) > 0`. -/
def mapContains (m : ClientMap) (k : String) : Bool :=
  (mapFind m k).isSome

/-- `clients_[k] = v`: insert-or-assign of `operator[]`. -/
def mapInsert (m : ClientMap) (k : String) (v : ClientInfo) : ClientMap :=
  if mapContains m k then
    m.map (fun p => if p.1 = k then (k, v) else p)
  else
    m ++ [(k, v)]

/-- `clients_.erase(k)`. -/
def mapErase (m : ClientMap) (k : String) : ClientMap :=
  m.filter (fun p => p.1 ≠ k)

/-- The mutable state of `SignalingServer`: the directory, the relay graph,
the static counter of `generateClientId`, and the configured relay
password. -/
structure ServerState where
  clients : ClientMap
  relayConnections : RelayGraph
  counter : Nat
  relayPassword : String

/-- A send performed by a handler: target WebSocket handle and message. -/
abbrev Out := Nat × SignalingMessage

/-- `generateClientId`: increments the static counter and returns
`peer_<counter>` (no freshness check against the directory). -/
def generateClientId (counter : Nat) : Nat × String :=
  (counter + 1, "peer_" ++ toString (counter + 1))

/-- `sendError`: looks the client up in the directory and, when present,
sends it an `Error` envelope with the given text. -/
def sendError (m : ClientMap) (clientId message : String) : List Out :=
  match mapFind m clientId with
  | some info => [(info.ws, { type := .Error, payload := message })]
  | none => []

end P2P

namespace P2P

/-- `handleRegister`: chooses the identity (the requested one when non-empty
and free, otherwise a synthesized `peer_<counter>`), rebinds the
connection's `clientId`, stores the `ClientInfo` with `operator[]`, and
echoes a `Register` envelope with the assigned identity.  There is no check
whether the connection already holds an identity. -/
def handleRegister (s : ServerState) (ws : Nat) (msg : SignalingMessage) :
    ServerState × String × List Out :=
  let requestedId := msg.payload
  let (counter', clientId) :=
    if requestedId ≠ "" then
      if mapContains s.clients requestedId then
        generateClientId s.counter
      else
        (s.counter, requestedId)
    else
      generateClientId s.counter
  let info : ClientInfo := { ws := ws, id := clientId, relayAuthenticated := false }
  let clients' := mapInsert s.clients clientId info
  ({ s with clients := clients', counter := counter' },
   clientId,
   [(ws, { type := .Register, payload := clientId })])

/-- `handlePeerList`: replies with the identities of all other registered
clients (the JSON serialization of the list is abstracted to the list
itself in the payload field being irrelevant to the claims; we record the
identities). -/
def peerListExcluding (m : ClientMap) (clientId : String) : List String :=
  (m.filter (fun p => p.1 ≠ clientId)).map (fun p => p.1)

/-- `handleSignaling` (`Offer`/`Answer`/`Candidate`): look up `to` in the
directory; found → forward the message with `from` overwritten by the
sender's registered identity; not found → `Error("Peer not found: <to>")`
back to the sender. -/
def handleSignaling (s : ServerState) (fromId : String) (msg : SignalingMessage) :
    ServerState × List Out :=
  match mapFind s.clients msg.to_ with
  | some toInfo =>
      (s, [(toInfo.ws, { msg with from_ := fromId })])
  | none =>
      (s, sendError s.clients fromId ("Peer not found: " ++ msg.to_))

/-- `handleRelayAuth`: compare the payload with the configured password;
empty configured password always fails; a match marks the sender's
directory entry `relayAuthenticated := true`; reply with a
`RelayAuthResult` whose payload carries `{success, message}` (serialized
here as the flag and text kept verbatim in the payload string). -/
def relayAuthResultPayload (success : Bool) (message : String) : String :=
  "\x7b\x22success\x22:" ++ (if success then "true" else "false") ++
  ",\x22message\x22:\x22" ++ message ++ "\x22\x7d"

def handleRelayAuth (s : ServerState) (ws : Nat) (clientId : String)
    (msg : SignalingMessage) : ServerState × List Out :=
  let providedPassword := msg.payload
  if s.relayPassword = "" then
    (s, [(ws, { type := .RelayAuthResult,
                payload := relayAuthResultPayload false "Relay is not configured on this server" })])
  else if providedPassword = s.relayPassword then
    let clients' := s.clients.map (fun p =>
      if p.1 = clientId then (p.1, { p.2 with relayAuthenticated := true }) else p)
    ({ s with clients := clients' },
     [(ws, { type := .RelayAuthResult,
             payload := relayAuthResultPayload true "Authentication successful" })])
  else
    (s, [(ws, { type := .RelayAuthResult,
                payload := relayAuthResultPayload false "Invalid password" })])

/-- `handleRelayConnect`: require the sender to be present and
relay-authenticated, require the target to be present, insert the unordered
pair into the relay graph, and notify the target with a `RelayConnect`
stamped `from := sender`. -/
def handleRelayConnect (s : ServerState) (fromId : String) (msg : SignalingMessage) :
    ServerState × List Out :=
  match mapFind s.clients fromId with
  | none => (s, sendError s.clients fromId "Not authenticated for relay")
  | some fromInfo =>
    if !fromInfo.relayAuthenticated then
      (s, sendError s.clients fromId "Not authenticated for relay")
    else
      match mapFind s.clients msg.to_ with
      | none => (s, sendError s.clients fromId ("Peer not found: " ++ msg.to_))
      | some toInfo =>
        let pair : RelayPair := { peer1 := fromId, peer2 := msg.to_ }
        ({ s with relayConnections := rgInsert s.relayConnections pair },
         [(toInfo.ws, { type := .RelayConnect, from_ := fromId, to_ := msg.to_ })])

/-- `handleRelayData`: scan the relay graph for the pair
`{fromId, msg.to}` with `RelayPair::operator==`; absent → error
`"No relay connection with <to>"` to the sender and stop; present but the
target is gone from the directory → `"Peer not found: <to>"`; otherwise
forward the message with `from` stamped to the sender. -/
def handleRelayData (s : ServerState) (fromId : String) (msg : SignalingMessage) :
    ServerState × List Out :=
  let pair : RelayPair := { peer1 := fromId, peer2 := msg.to_ }
  if !rgScanEq s.relayConnections pair then
    (s, sendError s.clients fromId ("No relay connection with " ++ msg.to_))
  else
    match mapFind s.clients msg.to_ with
    | none => (s, sendError s.clients fromId ("Peer not found: " ++ msg.to_))
    | some toInfo =>
        (s, [(toInfo.ws, { msg with from_ := fromId })])

/-- `handleRelayDisconnect`: erase the unordered pair from the relay graph
(a no-op when absent; never an error), then notify `to` with a
`RelayDisconnect` stamped `from := sender` when `to` is still registered. -/
def handleRelayDisconnect (s : ServerState) (fromId : String) (msg : SignalingMessage) :
    ServerState × List Out :=
  let pair : RelayPair := { peer1 := fromId, peer2 := msg.to_ }
  let relay' := rgErase s.relayConnections pair
  let outs :=
    match mapFind s.clients msg.to_ with
    | some toInfo =>
        [(toInfo.ws, ({ type := .RelayDisconnect, from_ := fromId, to_ := msg.to_ } : SignalingMessage))]
    | none => []
  ({ s with relayConnections := relay' }, outs)

/-- `removeClient` (socket-close cleanup for `clientId`): walk the relay
graph; every pair containing the client is collected for removal and, when
the other endpoint is still registered, that endpoint is sent one
`RelayDisconnect` with `from := clientId`; then the collected pairs are
erased and the client's directory entry is removed. -/
def removeClient (s : ServerState) (clientId : String) : ServerState × List Out :=
  let toRemove := s.relayConnections.filter (fun p => p.contains clientId)
  let outs := toRemove.filterMap (fun p =>
    let otherId := p.getOther clientId
    match mapFind s.clients otherId with
    | some otherInfo =>
        some (otherInfo.ws,
          ({ type := .RelayDisconnect, from_ := clientId, to_ := otherId } : SignalingMessage))
    | none => none)
  let relay' := toRemove.foldl rgErase s.relayConnections
  ({ s with clients := mapErase s.clients clientId, relayConnections := relay' }, outs)

/-- `handleMessage` on a frame whose outer JSON parsed: deserialize with
`fromJson` and dispatch on the tag.  `handlePeerList`'s reply payload is
the serialized peer list; we abstract that payload string as opaque
(`peerListExcluding` records its content).  Tags without a case
(`Connect`, `Error`, `Chat`, `RelayAuthResult` and everything decoded to
`Error`) fall through to `default: break` — no reply, no state change. -/
def handleMessage (s : ServerState) (ws : Nat) (clientId : String) (j : JsonObj) :
    ServerState × String × List Out :=
  let msg := SignalingMessage.fromJson j
  match msg.type with
  | .Register =>
      handleRegister s ws msg
  | .PeerList =>
      (s, clientId, [(ws, { type := .PeerList,
                            payload := toString (peerListExcluding s.clients clientId) })])
  | .Offer | .Answer | .Candidate =>
      let (s', outs) := handleSignaling s clientId msg
      (s', clientId, outs)
  | .RelayAuth =>
      let (s', outs) := handleRelayAuth s ws clientId msg
      (s', clientId, outs)
  | .RelayConnect =>
      let (s', outs) := handleRelayConnect s clientId msg
      (s', clientId, outs)
  | .RelayData =>
      let (s', outs) := handleRelayData s clientId msg
      (s', clientId, outs)
  | .RelayDisconnect =>
      let (s', outs) := handleRelayDisconnect s clientId msg
      (s', clientId, outs)
  | _ => (s, clientId, [])

end P2P

namespace P2P

/-! ## Client-side model (`client/src/p2p_client.cpp`)

Only the state touched by the signaling-socket lifecycle and the relay
bookkeeping is modelled: the connection state, the relay state, the
`relayPeers_` set (a `std::set<std::string>`, modelled as a duplicate-free
list) and the peer-connection/data-channel maps (only their key sets
matter to the claims). -/

/-- `enum class ConnectionState` from `types.hpp`. -/
inductive ConnectionState where
  | Disconnected
  | Connecting
  | Connected
  | Failed
  deriving DecidableEq, Repr

/-- `enum class RelayState` from `types.hpp`. -/
inductive RelayState where
  | NotAuthenticated
  | Authenticating
  | Authenticated
  | AuthFailed
  deriving DecidableEq, Repr

/-- The relevant fields of `P2PClientImpl`. -/
structure ClientState where
  state : ConnectionState
  relayState : RelayState
  relayPeers : List String
  peerConnections : List String
  dataChannels : List String
  deriving DecidableEq, Repr

/-- The `ws_->onClosed` lambda installed by `P2PClientImpl::connect`: it
sets the connection state to `Disconnected` and the relay state to
`NotAuthenticated` (and fires the user callback).  Nothing else is
touched. -/
def wsOnClosed (c : ClientState) : ClientState :=
  { c with state := .Disconnected, relayState := .NotAuthenticated }

/-- `P2PClientImpl::disconnect`: closes and clears every peer connection,
clears the data channels and the `relayPeers_` set, then sets the
connection state to `Disconnected` and the relay state to
`NotAuthenticated`. -/
def clientDisconnect (c : ClientState) : ClientState :=
  { c with peerConnections := [], dataChannels := [], relayPeers := [],
           state := .Disconnected, relayState := .NotAuthenticated }

/-- `P2PClientImpl::getRelayConnectedPeers`: the content of `relayPeers_`
as a vector. -/
def getRelayConnectedPeers (c : ClientState) : List String :=
  c.relayPeers

end P2P

namespace P2P

/-! ## Base64 (`protocol.hpp`)

Bytes and character codes are `Nat`s (`< 256`).  `uint32_t` arithmetic on
the decoder's accumulator is modelled with an explicit `% 2^32`. -/

/-- The encode alphabet `chars` of `base64Encode`, as character codes. -/
def b64chars : List Nat :=
  ("ABCDEFGHIJKLMNOPQRSTUVWXYZabcdefghijklmnopqrstuvwxyz0123456789+/".toList).map Char.toNat

/-- `chars[i]` (always called with `i < 64`). -/
def b64char (i : Nat) : Nat := b64chars.getD i 0

/-- One iteration of the encode loop: three input bytes (absent bytes read
as `0`) are packed into `triple` and emitted as four alphabet
characters. -/
def enc4 (a b c : Nat) : List Nat :=
  let triple := (a <<< 16) + (b <<< 8) + c
  [b64char ((triple >>> 18) &&& 63),
   b64char ((triple >>> 12) &&& 63),
   b64char ((triple >>> 6) &&& 63),
   b64char (triple &&& 63)]

/-- The `while` loop of `base64Encode`: one `enc4` block per (up to) three
consumed bytes. -/
def encodeLoop : List Nat → List Nat
  | a :: b :: c :: rest => enc4 a b c ++ encodeLoop rest
  | [a, b] => enc4 a b 0
  | [a] => enc4 a 0 0
  | [] => []

/-- The patch after the loop: `data.size() % 3 == 1` overwrites the last
two characters with `'='` (61), `% 3 == 2` the last one. -/
def padPatch (l : List Nat) (mod3 : Nat) : List Nat :=
  if mod3 = 1 then l.take (l.length - 2) ++ [61, 61]
  else if mod3 = 2 then l.take (l.length - 1) ++ [61]
  else l

/-- `base64Encode` over byte lists (character codes out). -/
def base64Encode (data : List Nat) : List Nat :=
  padPatch (encodeLoop data) (data.length % 3)

/-- The 256-entry `decodeTable` of `base64Decode`, verbatim. -/
def decodeTable : List Int :=
  [-1,-1,-1,-1,-1,-1,-1,-1,-1,-1,-1,-1,-1,-1,-1,-1,
   -1,-1,-1,-1,-1,-1,-1,-1,-1,-1,-1,-1,-1,-1,-1,-1,
   -1,-1,-1,-1,-1,-1,-1,-1,-1,-1,-1,62,-1,-1,-1,63,
   52,53,54,55,56,57,58,59,60,61,-1,-1,-1,-1,-1,-1,
   -1, 0, 1, 2, 3, 4, 5, 6, 7, 8, 9,10,11,12,13,14,
   15,16,17,18,19,20,21,22,23,24,25,-1,-1,-1,-1,-1,
   -1,26,27,28,29,30,31,32,33,34,35,36,37,38,39,40,
   41,42,43,44,45,46,47,48,49,50,51,-1,-1,-1,-1,-1,
   -1,-1,-1,-1,-1,-1,-1,-1,-1,-1,-1,-1,-1,-1,-1,-1,
   -1,-1,-1,-1,-1,-1,-1,-1,-1,-1,-1,-1,-1,-1,-1,-1,
   -1,-1,-1,-1,-1,-1,-1,-1,-1,-1,-1,-1,-1,-1,-1,-1,
   -1,-1,-1,-1,-1,-1,-1,-1,-1,-1,-1,-1,-1,-1,-1,-1,
   -1,-1,-1,-1,-1,-1,-1,-1,-1,-1,-1,-1,-1,-1,-1,-1,
   -1,-1,-1,-1,-1,-1,-1,-1,-1,-1,-1,-1,-1,-1,-1,-1,
   -1,-1,-1,-1,-1,-1,-1,-1,-1,-1,-1,-1,-1,-1,-1,-1,
   -1,-1,-1,-1,-1,-1,-1,-1,-1,-1,-1,-1,-1,-1,-1,-1]

/-- `decodeTable[c]` (a `char` index is always `< 256`). -/
def decodeTableAt (c : Nat) : Int := decodeTable.getD c (-1)

/-- A character code the decoder accepts (its table entry is not `-1`). -/
def b64Valid (c : Nat) : Bool := decodeTableAt c ≠ -1

/-- The accumulator loop of `base64Decode`: stop at `'='`, skip characters
outside the alphabet, otherwise shift six bits in (`uint32_t` overflow as
`% 2^32`) and emit a byte whenever at least eight bits are pending. -/
def decodeLoop : List Nat → Nat → Int → List Nat → List Nat
  | [], _, _, acc => acc
  | c :: rest, val, valb, acc =>
      if c = 61 then acc
      else
        let v := decodeTableAt c
        if v = -1 then decodeLoop rest val valb acc
        else
          let val' := ((val <<< 6) + v.toNat) % 4294967296
          if valb + 6 ≥ 0 then
            decodeLoop rest val' (valb + 6 - 8) (acc ++ [(val' >>> (valb + 6).toNat) &&& 255])
          else
            decodeLoop rest val' (valb + 6) acc

/-- The padding scan at the top of `base64Decode`: one for a trailing
`'='`, one more when the second-to-last character is also `'='` (the two
tests are independent in the source). -/
def b64Padding (encoded : List Nat) : Nat :=
  (if 0 < encoded.length ∧ encoded.getD (encoded.length - 1) 0 = 61 then 1 else 0) +
  (if 1 < encoded.length ∧ encoded.getD (encoded.length - 2) 0 = 61 then 1 else 0)

/-- `base64Decode`.  `outLen = (encoded.size() / 4) * 3 - padding` is
computed in `size_t`; when the subtraction underflows, the subsequent
`result.reserve(outLen)` exceeds `max_size()` and throws
`std::length_error` — modelled as `none`.  Otherwise the
accumulator loop runs and the byte vector is returned. -/
def base64Decode (encoded : List Nat) : Option (List Nat) :=
  if (encoded.length / 4) * 3 < b64Padding encoded then
    none
  else
    some (decodeLoop encoded 0 (-8) [])

/-- The accumulator loop restricted to accepted characters: `decodeLoop`
with the `'='` stop and the skip branch removed.  `decodeLoop` on an
arbitrary input equals `decodeCore` on the input truncated at the first
`'='` and filtered to the alphabet (proved below); it characterizes the
decoder's skip/stop behaviour. -/
def decodeCore : List Nat → Nat → Int → List Nat → List Nat
  | [], _, _, acc => acc
  | c :: rest, val, valb, acc =>
      let v := decodeTableAt c
      let val' := ((val <<< 6) + v.toNat) % 4294967296
      if valb + 6 ≥ 0 then
        decodeCore rest val' (valb + 6 - 8) (acc ++ [(val' >>> (valb + 6).toNat) &&& 255])
      else
        decodeCore rest val' (valb + 6) acc

end P2P


namespace P2P

/-! ## Helper lemmas: `RelayPair` and the relay graph -/

namespace RelayPair

theorem lt_self_false (p : RelayPair) : ¬ lt p p := by
  unfold lt; simp

/-- The comparator equivalence is equality of the sorted endpoint pairs. -/
theorem equiv_iff (p q : RelayPair) :
    equiv p q ↔
      (min p.peer1 p.peer2 = min q.peer1 q.peer2 ∧
       max p.peer1 p.peer2 = max q.peer1 q.peer2) := by
  unfold equiv lt
  constructor
  · rintro ⟨h1, h2⟩
    push_neg at h1 h2
    have hA : min p.peer1 p.peer2 = min q.peer1 q.peer2 :=
      le_antisymm (not_lt.mp h2.1) (not_lt.mp h1.1)
    have hB : max p.peer1 p.peer2 = max q.peer1 q.peer2 :=
      le_antisymm (not_lt.mp (h2.2 hA.symm)) (not_lt.mp (h1.2 hA))
    exact ⟨hA, hB⟩
  · rintro ⟨hA, hB⟩
    rw [hA, hB]
    constructor <;> · rintro (h | ⟨-, h⟩) <;> exact absurd h (by simp)

theorem equiv_refl (p : RelayPair) : equiv p p :=
  (equiv_iff p p).mpr ⟨rfl, rfl⟩

theorem equiv_symm {p q : RelayPair} (h : equiv p q) : equiv q p := by
  rw [equiv_iff] at h ⊢
  exact ⟨h.1.symm, h.2.symm⟩

theorem equiv_trans {p q r : RelayPair} (h1 : equiv p q) (h2 : equiv q r) :
    equiv p r := by
  rw [equiv_iff] at h1 h2 ⊢
  exact ⟨h1.1.trans h2.1, h1.2.trans h2.2⟩

/-- `{a, b}` and `{b, a}` are equivalent under the set comparator. -/
theorem equiv_flip (a b : String) :
    equiv ⟨a, b⟩ ⟨b, a⟩ :=
  (equiv_iff _ _).mpr ⟨min_comm a b, max_comm a b⟩

/-- `operator==` is insensitive to the endpoint order of its argument. -/
theorem beq_flip (q : RelayPair) (a b : String) :
    beq q ⟨a, b⟩ = beq q ⟨b, a⟩ := by
  simp only [beq]
  exact Bool.or_comm _ _

/-- A pair equivalent to a pair containing `id` contains `id` as well. -/
theorem contains_of_equiv {p q : RelayPair} (h : equiv p q) (id : String)
    (hc : q.contains id = true) : p.contains id = true := by
  rw [equiv_iff] at h
  simp only [contains, Bool.or_eq_true, decide_eq_true_eq] at hc ⊢
  rcases le_total q.peer1 q.peer2 with hq | hq <;>
    rcases le_total p.peer1 p.peer2 with hp | hp <;>
    simp only [min_eq_left, min_eq_right, max_eq_left, max_eq_right, hp, hq] at h <;>
    · obtain ⟨h1, h2⟩ := h
      rcases hc with hc | hc <;> rw [← hc] <;> tauto

end RelayPair

theorem rgScanEq_flip (g : RelayGraph) (a b : String) :
    rgScanEq g ⟨a, b⟩ = rgScanEq g ⟨b, a⟩ := by
  unfold rgScanEq
  congr 1
  funext q
  exact RelayPair.beq_flip q a b

theorem rgInsert_idem (g : RelayGraph) (p : RelayPair) :
    rgInsert (rgInsert g p) p = rgInsert g p := by
  unfold rgInsert
  by_cases h : g.any (fun q => decide (RelayPair.equiv q p)) = true
  · simp [h]
  · simp only [h, Bool.false_eq_true, if_false, if_neg h]
    have : (p :: g).any (fun q => decide (RelayPair.equiv q p)) = true := by
      simp [RelayPair.equiv_refl]
    simp [this]

/-- Inserting the flipped pair after `{a, b}` is a no-op as well. -/
theorem rgInsert_flip_idem (g : RelayGraph) (a b : String) :
    rgInsert (rgInsert g ⟨a, b⟩) ⟨b, a⟩ = rgInsert g ⟨a, b⟩ := by
  unfold rgInsert
  by_cases h : g.any (fun q => decide (RelayPair.equiv q ⟨a, b⟩)) = true
  · simp only [h, if_true]
    have : g.any (fun q => decide (RelayPair.equiv q ⟨b, a⟩)) = true := by
      simp only [List.any_eq_true, decide_eq_true_eq] at h ⊢
      obtain ⟨q, hq, he⟩ := h
      exact ⟨q, hq, RelayPair.equiv_trans he (RelayPair.equiv_flip a b)⟩
    simp [this]
  · simp only [h, Bool.false_eq_true, if_false, if_neg h]
    have : (RelayPair.mk a b :: g).any (fun q => decide (RelayPair.equiv q ⟨b, a⟩)) = true := by
      simp only [List.any_cons, Bool.or_eq_true, decide_eq_true_eq]
      exact Or.inl (RelayPair.equiv_flip a b)
    simp [this]

theorem rgErase_of_absent (g : RelayGraph) (p : RelayPair)
    (h : ∀ q ∈ g, ¬ RelayPair.equiv q p) : rgErase g p = g := by
  unfold rgErase
  rw [List.filter_eq_self]
  intro q hq
  simp [h q hq]

theorem rgErase_removes (g : RelayGraph) (p q : RelayPair)
    (hq : q ∈ rgErase g p) : ¬ RelayPair.equiv q p := by
  unfold rgErase at hq
  have := List.of_mem_filter hq
  simpa using this

end P2P

namespace P2P

/-- C7: relay pairs are unordered and the relay-graph operations are
idempotent — for distinct identities `a`, `b`: inserting `{a,b}` twice (or
re-inserting it with the endpoints flipped) equals inserting it once,
`{a,b}` and `{b,a}` are the same element of the graph (comparator
equivalence, and the data-path membership scan agrees on both orders), a
`relay_disconnect` issued from endpoint `b` towards `a` removes the pair
`{a,b}`, never emits an `Error`, and erasing an absent pair leaves the
graph unchanged. -/
theorem C7_pair_symmetry_idempotence (g : RelayGraph) (s : ServerState)
    (a b : String) (h : a ≠ b) :
    rgInsert (rgInsert g ⟨a, b⟩) ⟨a, b⟩ = rgInsert g ⟨a, b⟩ ∧
    rgInsert (rgInsert g ⟨a, b⟩) ⟨b, a⟩ = rgInsert g ⟨a, b⟩ ∧
    RelayPair.equiv ⟨a, b⟩ ⟨b, a⟩ ∧
    rgScanEq g ⟨a, b⟩ = rgScanEq g ⟨b, a⟩ ∧
    (∀ msg : SignalingMessage, msg.to_ = a →
      (handleRelayDisconnect s b msg).1.relayConnections =
          rgErase s.relayConnections ⟨b, a⟩ ∧
      ∀ q ∈ (handleRelayDisconnect s b msg).1.relayConnections,
        ¬ RelayPair.equiv q ⟨a, b⟩) ∧
    (∀ msg : SignalingMessage, ∀ o ∈ (handleRelayDisconnect s b msg).2,
      o.2.type = MessageType.RelayDisconnect) ∧
    ((∀ q ∈ g, ¬ RelayPair.equiv q ⟨a, b⟩) → rgErase g ⟨a, b⟩ = g) := by
  refine ⟨rgInsert_idem g _, rgInsert_flip_idem g a b, RelayPair.equiv_flip a b,
    rgScanEq_flip g a b, ?_, ?_, rgErase_of_absent g _⟩
  · intro msg hto
    subst hto
    constructor
    · unfold handleRelayDisconnect
      cases mapFind s.clients msg.to_ <;> rfl
    · intro q hq
      have hstate : (handleRelayDisconnect s b msg).1.relayConnections =
          rgErase s.relayConnections ⟨b, msg.to_⟩ := by
        unfold handleRelayDisconnect
        cases mapFind s.clients msg.to_ <;> rfl
      rw [hstate] at hq
      have hne := rgErase_removes _ _ _ hq
      intro he
      exact hne (RelayPair.equiv_trans he (RelayPair.equiv_flip msg.to_ b))
  · intro msg o ho
    unfold handleRelayDisconnect at ho
    cases hm : mapFind s.clients msg.to_ <;> rw [hm] at ho <;> simp at ho
    simp [ho]

theorem C7_witness : RelayPair.equiv ⟨"a", "b"⟩ ⟨"b", "a"⟩ :=
  (C7_pair_symmetry_idempotence [] ⟨[], [], 0, ""⟩ "a" "b" (by decide)).2.2.1

/-- C1: a `relay_data` frame from registered sender `X` to `Y` is forwarded
only when the unordered pair `{X,Y}` is in the relay graph; when the pair
is absent the hub replies to `X` with
`Error("No relay connection with " ++ Y)`, leaves the whole server state
(directory and relay graph) unchanged, and delivers nothing else — in
particular nothing reaches `Y`. -/
theorem C1_relay_data_requires_pair (s : ServerState) (fromId : String)
    (msg : SignalingMessage) (finfo : ClientInfo)
    (hty : msg.type = MessageType.RelayData)
    (hreg : mapFind s.clients fromId = some finfo) :
    (rgScanEq s.relayConnections ⟨fromId, msg.to_⟩ = false →
      handleRelayData s fromId msg =
        (s, [(finfo.ws, { type := .Error,
                          payload := "No relay connection with " ++ msg.to_ })])) ∧
    (∀ o ∈ (handleRelayData s fromId msg).2, o.2.type = MessageType.RelayData →
      rgScanEq s.relayConnections ⟨fromId, msg.to_⟩ = true) := by
  constructor
  · intro hscan
    simp only [handleRelayData, sendError, hscan, hreg, Bool.not_false, if_true]
  · intro o ho hoty
    by_cases hscan : rgScanEq s.relayConnections ⟨fromId, msg.to_⟩ = true
    · exact hscan
    · exfalso
      rw [Bool.not_eq_true] at hscan
      simp only [handleRelayData, sendError, hscan, hreg, Bool.not_false, if_true] at ho
      simp at ho
      rw [ho] at hoty
      simp at hoty

theorem C1_witness :
    handleRelayData ⟨[("x", ⟨0, "x", false⟩)], [], 0, ""⟩ "x"
        { type := .RelayData, to_ := "y" } =
      (⟨[("x", ⟨0, "x", false⟩)], [], 0, ""⟩,
       [(0, { type := .Error, payload := "No relay connection with " ++ "y" })]) :=
  (C1_relay_data_requires_pair ⟨[("x", ⟨0, "x", false⟩)], [], 0, ""⟩ "x"
    { type := .RelayData, to_ := "y" } ⟨0, "x", false⟩ rfl (by decide)).1 (by decide)

end P2P

namespace P2P

theorem handleSignaling_out_from (s : ServerState) (f : String)
    (m : SignalingMessage) :
    ∀ o ∈ (handleSignaling s f m).2, o.2.type = MessageType.Error ∨ o.2.from_ = f := by
  intro o ho
  unfold handleSignaling sendError at ho
  cases hm : mapFind s.clients m.to_ <;> rw [hm] at ho
  · cases hf : mapFind s.clients f <;> rw [hf] at ho <;> simp at ho
    simp [ho]
  · simp at ho
    simp [ho]

theorem handleRelayConnect_out_from (s : ServerState) (f : String)
    (m : SignalingMessage) :
    ∀ o ∈ (handleRelayConnect s f m).2, o.2.type = MessageType.Error ∨ o.2.from_ = f := by
  intro o ho
  unfold handleRelayConnect sendError at ho
  cases hm : mapFind s.clients f with
  | none =>
    simp [hm] at ho
  | some finfo =>
    cases ha : finfo.relayAuthenticated with
    | false =>
      simp [hm, ha] at ho
      simp [ho]
    | true =>
      cases ht : mapFind s.clients m.to_ with
      | none =>
        simp [hm, ha, ht] at ho
        simp [ho]
      | some tinfo =>
        simp [hm, ha, ht] at ho
        simp [ho]

theorem handleRelayData_out_from (s : ServerState) (f : String)
    (m : SignalingMessage) :
    ∀ o ∈ (handleRelayData s f m).2, o.2.type = MessageType.Error ∨ o.2.from_ = f := by
  intro o ho
  unfold handleRelayData sendError at ho
  by_cases hs : rgScanEq s.relayConnections ⟨f, m.to_⟩ = true
  · rw [if_neg (by simp [hs])] at ho
    cases ht : mapFind s.clients m.to_ <;> rw [ht] at ho
    · cases hf : mapFind s.clients f <;> rw [hf] at ho <;> simp at ho
      simp [ho]
    · simp at ho
      simp [ho]
  · rw [Bool.not_eq_true] at hs
    rw [if_pos (by simp [hs])] at ho
    cases hf : mapFind s.clients f <;> rw [hf] at ho <;> simp at ho
    simp [ho]

theorem handleRelayDisconnect_out_from (s : ServerState) (f : String)
    (m : SignalingMessage) :
    ∀ o ∈ (handleRelayDisconnect s f m).2, o.2.type = MessageType.Error ∨ o.2.from_ = f := by
  intro o ho
  unfold handleRelayDisconnect at ho
  cases hm : mapFind s.clients m.to_ <;> rw [hm] at ho <;> simp at ho
  simp [ho]

theorem handleRelayAuth_out_type (s : ServerState) (ws : Nat) (cid : String)
    (m : SignalingMessage) :
    ∀ o ∈ (handleRelayAuth s ws cid m).2, o.2.type = MessageType.RelayAuthResult := by
  intro o ho
  unfold handleRelayAuth at ho
  by_cases h1 : s.relayPassword = ""
  · simp [h1] at ho
    simp [ho]
  · by_cases h2 : m.payload = s.relayPassword
    · simp [h1, h2] at ho
      simp [ho]
    · simp [h1, h2] at ho
      simp [ho]

/-- C3: every envelope of type `offer`, `answer`, `candidate`,
`relay_connect`, `relay_data` or `relay_disconnect` that the hub emits
while processing an inbound frame from a registered connection carries
`from` equal to that connection's registered identity, regardless of the
`from` value the sender supplied in the frame. -/
theorem C3_from_stamp (s : ServerState) (ws : Nat) (cid : String) (j : JsonObj)
    (hreg : mapContains s.clients cid = true) :
    ∀ o ∈ (handleMessage s ws cid j).2.2,
      (o.2.type = MessageType.Offer ∨ o.2.type = MessageType.Answer ∨
       o.2.type = MessageType.Candidate ∨ o.2.type = MessageType.RelayConnect ∨
       o.2.type = MessageType.RelayData ∨ o.2.type = MessageType.RelayDisconnect) →
      o.2.from_ = cid := by
  intro o ho hty
  unfold handleMessage at ho
  cases hmt : (SignalingMessage.fromJson j).type <;> simp only [hmt] at ho
  case Register =>
    simp [handleRegister] at ho
    rw [ho] at hty
    simp at hty
  case PeerList =>
    simp at ho
    rw [ho] at hty
    simp at hty
  case Connect =>
    simp at ho
  case Error =>
    simp at ho
  case Chat =>
    simp at ho
  case RelayAuthResult =>
    simp at ho
  case Offer =>
    have hout : o ∈ (handleSignaling s cid (SignalingMessage.fromJson j)).2 := by
      rcases hE : handleSignaling s cid (SignalingMessage.fromJson j) with ⟨s', outs⟩
      rw [hE] at ho
      simpa [hE] using ho
    rcases handleSignaling_out_from s cid _ _ hout with he | hf
    · rw [he] at hty; simp at hty
    · exact hf
  case Answer =>
    have hout : o ∈ (handleSignaling s cid (SignalingMessage.fromJson j)).2 := by
      rcases hE : handleSignaling s cid (SignalingMessage.fromJson j) with ⟨s', outs⟩
      rw [hE] at ho
      simpa [hE] using ho
    rcases handleSignaling_out_from s cid _ _ hout with he | hf
    · rw [he] at hty; simp at hty
    · exact hf
  case Candidate =>
    have hout : o ∈ (handleSignaling s cid (SignalingMessage.fromJson j)).2 := by
      rcases hE : handleSignaling s cid (SignalingMessage.fromJson j) with ⟨s', outs⟩
      rw [hE] at ho
      simpa [hE] using ho
    rcases handleSignaling_out_from s cid _ _ hout with he | hf
    · rw [he] at hty; simp at hty
    · exact hf
  case RelayAuth =>
    have hout : o ∈ (handleRelayAuth s ws cid (SignalingMessage.fromJson j)).2 := by
      rcases hE : handleRelayAuth s ws cid (SignalingMessage.fromJson j) with ⟨s', outs⟩
      rw [hE] at ho
      simpa [hE] using ho
    have := handleRelayAuth_out_type s ws cid _ _ hout
    rw [this] at hty
    simp at hty
  case RelayConnect =>
    have hout : o ∈ (handleRelayConnect s cid (SignalingMessage.fromJson j)).2 := by
      rcases hE : handleRelayConnect s cid (SignalingMessage.fromJson j) with ⟨s', outs⟩
      rw [hE] at ho
      simpa [hE] using ho
    rcases handleRelayConnect_out_from s cid _ _ hout with he | hf
    · rw [he] at hty; simp at hty
    · exact hf
  case RelayData =>
    have hout : o ∈ (handleRelayData s cid (SignalingMessage.fromJson j)).2 := by
      rcases hE : handleRelayData s cid (SignalingMessage.fromJson j) with ⟨s', outs⟩
      rw [hE] at ho
      simpa [hE] using ho
    rcases handleRelayData_out_from s cid _ _ hout with he | hf
    · rw [he] at hty; simp at hty
    · exact hf
  case RelayDisconnect =>
    have hout : o ∈ (handleRelayDisconnect s cid (SignalingMessage.fromJson j)).2 := by
      rcases hE : handleRelayDisconnect s cid (SignalingMessage.fromJson j) with ⟨s', outs⟩
      rw [hE] at ho
      simpa [hE] using ho
    rcases handleRelayDisconnect_out_from s cid _ _ hout with he | hf
    · rw [he] at hty; simp at hty
    · exact hf

theorem C3_witness :
    ((1 : Nat), ({ type := .Offer, from_ := "x", to_ := "y" } :
      SignalingMessage)).2.from_ = "x" :=
  C3_from_stamp ⟨[("x", ⟨0, "x", false⟩), ("y", ⟨1, "y", false⟩)], [], 0, ""⟩
    0 "x" [("type", "offer"), ("from", "forged"), ("to", "y")] (by decide)
    (1, { type := .Offer, from_ := "x", to_ := "y" }) (by decide) (by decide)

end P2P

namespace P2P

/-! ## Helper lemmas: the directory map -/

theorem mapFind_cons (p : String × ClientInfo) (t : ClientMap) (k : String) :
    mapFind (p :: t) k = if p.1 = k then some p.2 else mapFind t k := by
  unfold mapFind
  by_cases hp : p.1 = k
  · rw [List.find?_cons_of_pos _ (by simp [hp])]
    simp [hp]
  · rw [List.find?_cons_of_neg _ (by simp [hp])]
    simp [hp]

theorem mapContains_eq_false_iff (m : ClientMap) (k : String) :
    mapContains m k = false ↔ mapFind m k = none := by
  unfold mapContains
  cases mapFind m k <;> simp

theorem mapFind_replace_self (m : ClientMap) (k : String) (v : ClientInfo)
    (h : mapFind m k ≠ none) :
    mapFind (m.map (fun p => if p.1 = k then (k, v) else p)) k = some v := by
  induction m with
  | nil => simp [mapFind] at h
  | cons p t ih =>
    by_cases hp : p.1 = k
    · simp [mapFind_cons, hp]
    · rw [mapFind_cons] at h
      rw [if_neg hp] at h
      simp only [List.map_cons, if_neg hp]
      rw [mapFind_cons, if_neg hp]
      exact ih h

theorem mapFind_replace_ne (m : ClientMap) (k : String) (v : ClientInfo)
    (k' : String) (h : k' ≠ k) :
    mapFind (m.map (fun p => if p.1 = k then (k, v) else p)) k' = mapFind m k' := by
  induction m with
  | nil => rfl
  | cons p t ih =>
    by_cases hp : p.1 = k
    · simp only [List.map_cons, if_pos hp]
      rw [mapFind_cons, mapFind_cons, if_neg (Ne.symm h), if_neg (by rw [hp]; exact Ne.symm h)]
      exact ih
    · simp only [List.map_cons, if_neg hp]
      rw [mapFind_cons, mapFind_cons]
      by_cases hk : p.1 = k' <;> simp [hk, ih]

theorem mapFind_append_single_self (m : ClientMap) (k : String) (v : ClientInfo)
    (h : mapFind m k = none) :
    mapFind (m ++ [(k, v)]) k = some v := by
  induction m with
  | nil => simp [mapFind_cons]
  | cons p t ih =>
    rw [mapFind_cons] at h
    by_cases hp : p.1 = k
    · simp [hp] at h
    · rw [List.cons_append, mapFind_cons, if_neg hp]
      exact ih (by simpa [hp] using h)

theorem mapFind_append_single_ne (m : ClientMap) (k : String) (v : ClientInfo)
    (k' : String) (h : k' ≠ k) :
    mapFind (m ++ [(k, v)]) k' = mapFind m k' := by
  induction m with
  | nil =>
    simp only [List.nil_append, mapFind_cons, if_neg (Ne.symm h)]
  | cons p t ih =>
    rw [List.cons_append, mapFind_cons, mapFind_cons]
    by_cases hk : p.1 = k' <;> simp [hk, ih]

theorem mapFind_mapInsert_self (m : ClientMap) (k : String) (v : ClientInfo) :
    mapFind (mapInsert m k v) k = some v := by
  unfold mapInsert
  by_cases hc : mapContains m k
  · rw [if_pos hc]
    refine mapFind_replace_self m k v ?_
    intro hnone
    rw [(mapContains_eq_false_iff m k).mpr hnone] at hc
    simp at hc
  · rw [if_neg hc]
    exact mapFind_append_single_self m k v
      ((mapContains_eq_false_iff m k).mp (by simpa using hc))

theorem mapFind_mapInsert_ne (m : ClientMap) (k : String) (v : ClientInfo)
    (k' : String) (h : k' ≠ k) :
    mapFind (mapInsert m k v) k' = mapFind m k' := by
  unfold mapInsert
  by_cases hc : mapContains m k
  · rw [if_pos hc]
    exact mapFind_replace_ne m k v k' h
  · rw [if_neg hc]
    exact mapFind_append_single_ne m k v k' h

end P2P

namespace P2P

/-- C4 counterexample: a connection already bound to `"alice"` (present in
the directory) receives a second `register` frame; the hub does not ignore
it — the directory changes (a new entry appears) and the connection's bound
identity is replaced by `"peer_1"`. -/
theorem C4_counterexample :
    (handleMessage ⟨[("alice", ⟨0, "alice", false⟩)], [], 0, ""⟩ 0 "alice"
        [("type", "register")]).1.clients ≠
      [("alice", ⟨0, "alice", false⟩)] ∧
    (handleMessage ⟨[("alice", ⟨0, "alice", false⟩)], [], 0, ""⟩ 0 "alice"
        [("type", "register")]).2.1 = "peer_1" := by decide

/-- C4 (amended): a further `register` frame on an already-bound connection
is processed as a fresh registration, not ignored — with an empty requested
id the connection is rebound to the synthesized identity
`peer_<counter+1>`, a new directory entry is created for it, the stale
entry for the previous identity remains in the directory, and a `register`
echo is sent. -/
theorem C4_reregister_rebinds (s : ServerState) (ws : Nat) (cid : String)
    (info : ClientInfo) (msg : SignalingMessage)
    (hbound : mapFind s.clients cid = some info)
    (hpay : msg.payload = "")
    (hfresh : mapContains s.clients ("peer_" ++ toString (s.counter + 1)) = false) :
    (handleRegister s ws msg).2.1 = "peer_" ++ toString (s.counter + 1) ∧
    mapFind (handleRegister s ws msg).1.clients ("peer_" ++ toString (s.counter + 1)) =
      some ⟨ws, "peer_" ++ toString (s.counter + 1), false⟩ ∧
    mapFind (handleRegister s ws msg).1.clients cid = some info ∧
    (handleRegister s ws msg).2.2 =
      [(ws, { type := .Register, payload := "peer_" ++ toString (s.counter + 1) })] := by
  have hcid : cid ≠ "peer_" ++ toString (s.counter + 1) := by
    intro he
    rw [he, (mapContains_eq_false_iff _ _).mp hfresh] at hbound
    exact Option.noConfusion hbound
  simp only [handleRegister, hpay, ne_eq, not_true_eq_false, if_false, generateClientId]
  refine ⟨by simp, mapFind_mapInsert_self _ _ _, ?_, by simp⟩
  rw [mapFind_mapInsert_ne _ _ _ _ hcid]
  exact hbound

theorem C4_witness :
    mapFind (handleRegister ⟨[("alice", ⟨0, "alice", false⟩)], [], 0, ""⟩ 0
        { type := .Register }).1.clients "alice" = some ⟨0, "alice", false⟩ ∧
    (handleRegister ⟨[("alice", ⟨0, "alice", false⟩)], [], 0, ""⟩ 0
        { type := .Register }).2.1 = "peer_" ++ toString (0 + 1) :=
  ⟨(C4_reregister_rebinds ⟨[("alice", ⟨0, "alice", false⟩)], [], 0, ""⟩ 0 "alice"
      ⟨0, "alice", false⟩ { type := .Register } (by decide) rfl (by decide)).2.2.1,
   (C4_reregister_rebinds ⟨[("alice", ⟨0, "alice", false⟩)], [], 0, ""⟩ 0 "alice"
      ⟨0, "alice", false⟩ { type := .Register } (by decide) rfl (by decide)).1⟩

/-- C5 counterexample: connection 0 registers requesting `"peer_1"` and is
bound to it; connection 1 then registers with an empty requested id — the
hub synthesizes `"peer_1"` (counter 1) without any freshness check and the
`clients_["peer_1"] = info` assignment overwrites connection 0's directory
entry (its `ws` changes from 0 to 1). -/
theorem C5_counterexample :
    (handleRegister ((handleRegister ⟨[], [], 0, ""⟩ 0
        { type := .Register, payload := "peer_1" }).1) 1
        { type := .Register, payload := "" }).2.1 = "peer_1" ∧
    mapFind (handleRegister ⟨[], [], 0, ""⟩ 0
        { type := .Register, payload := "peer_1" }).1.clients "peer_1" =
      some ⟨0, "peer_1", false⟩ ∧
    mapFind (handleRegister ((handleRegister ⟨[], [], 0, ""⟩ 0
        { type := .Register, payload := "peer_1" }).1) 1
        { type := .Register, payload := "" }).1.clients "peer_1" =
      some ⟨1, "peer_1", false⟩ := by decide

/-- C5 (amended): when the requested identity is empty or already taken the
hub assigns `peer_<counter+1>` and the counter strictly increases over the
process lifetime, but the synthesized identity is not checked for
freshness: the new info is stored with insert-or-assign semantics, so a
colliding synthesized identity overwrites the existing directory entry
rather than being fresh. -/
theorem C5_synthesized_id (s : ServerState) (ws : Nat) (msg : SignalingMessage)
    (h : msg.payload = "" ∨ mapContains s.clients msg.payload = true) :
    (handleRegister s ws msg).2.1 = "peer_" ++ toString (s.counter + 1) ∧
    (handleRegister s ws msg).1.counter = s.counter + 1 ∧
    s.counter < (handleRegister s ws msg).1.counter ∧
    (handleRegister s ws msg).1.clients =
      mapInsert s.clients ("peer_" ++ toString (s.counter + 1))
        ⟨ws, "peer_" ++ toString (s.counter + 1), false⟩ ∧
    mapFind (handleRegister s ws msg).1.clients ("peer_" ++ toString (s.counter + 1)) =
      some ⟨ws, "peer_" ++ toString (s.counter + 1), false⟩ := by
  by_cases hp : msg.payload = ""
  · simp only [handleRegister, hp, ne_eq, not_true_eq_false, if_false, generateClientId]
    exact ⟨by simp, by simp, Nat.lt_succ_self _, by simp, mapFind_mapInsert_self _ _ _⟩
  · have hc : mapContains s.clients msg.payload = true := h.resolve_left hp
    simp only [handleRegister, ne_eq, hp, not_false_eq_true, if_true, hc,
      generateClientId]
    exact ⟨by simp, by simp, Nat.lt_succ_self _, by simp, mapFind_mapInsert_self _ _ _⟩

theorem C5_witness :
    (handleRegister ⟨[], [], 0, ""⟩ 5 { type := .Register }).2.1 =
      "peer_" ++ toString (0 + 1) :=
  (C5_synthesized_id ⟨[], [], 0, ""⟩ 5 { type := .Register } (Or.inl rfl)).1

end P2P

namespace P2P

/-- C8 counterexample: a parsed frame with the unknown tag `"bogus"` and a
non-empty `from` field decodes to the `Error` tag, but the `from` field is
copied from the frame rather than left empty. -/
theorem C8_counterexample :
    (SignalingMessage.fromJson [("type", "bogus"), ("from", "x"), ("to", "y"),
        ("payload", "z")]).type = MessageType.Error ∧
    (SignalingMessage.fromJson [("type", "bogus"), ("from", "x"), ("to", "y"),
        ("payload", "z")]).from_ = "x" := by decide

/-- C8 (amended): a parsed frame whose `type` string is none of the
enumerated wire tags decodes to an envelope with the `Error` tag whose
`from`, `to` and `payload` fields are copied from the frame (empty only
when absent), and the hub discards it: the state and the connection's
bound identity are unchanged and no reply is sent. -/
theorem C8_unknown_tag_discarded (s : ServerState) (ws : Nat) (cid : String)
    (j : JsonObj)
    (hunk : jval j "type" "error" ∉
      ["register", "peer_list", "offer", "answer", "candidate", "connect",
       "error", "chat", "relay_auth", "relay_auth_result", "relay_connect",
       "relay_data", "relay_disconnect"]) :
    (SignalingMessage.fromJson j).type = MessageType.Error ∧
    (SignalingMessage.fromJson j).from_ = jval j "from" "" ∧
    (SignalingMessage.fromJson j).to_ = jval j "to" "" ∧
    (SignalingMessage.fromJson j).payload = jval j "payload" "" ∧
    handleMessage s ws cid j = (s, cid, []) := by
  simp only [List.mem_cons, List.not_mem_nil, or_false, not_or] at hunk
  obtain ⟨h1, h2, h3, h4, h5, h6, h7, h8, h9, h10, h11, h12, h13⟩ := hunk
  have hty : (SignalingMessage.fromJson j).type = MessageType.Error := by
    simp only [SignalingMessage.fromJson, stringToMessageType,
      h1, h2, h3, h4, h5, h6, h7, h8, h9, h10, h11, h12, h13, if_false]
  refine ⟨hty, rfl, rfl, rfl, ?_⟩
  unfold handleMessage
  simp only [hty]

theorem C8_witness :
    handleMessage ⟨[("x", ⟨0, "x", false⟩)], [], 0, ""⟩ 0 "x"
        [("type", "bogus"), ("from", "forged")] =
      (⟨[("x", ⟨0, "x", false⟩)], [], 0, ""⟩, "x", []) :=
  (C8_unknown_tag_discarded ⟨[("x", ⟨0, "x", false⟩)], [], 0, ""⟩ 0 "x"
    [("type", "bogus"), ("from", "forged")] (by decide)).2.2.2.2

/-- C9 counterexample: with one relay peer `"bob"` recorded locally, the
`onClosed` handler of the signaling socket transitions the two states but
leaves the relay-peers set untouched, so `getRelayConnectedPeers` still
returns `["bob"]` rather than the empty list. -/
theorem C9_counterexample :
    (wsOnClosed ⟨.Connected, .Authenticated, ["bob"], [], []⟩).state =
        ConnectionState.Disconnected ∧
    (wsOnClosed ⟨.Connected, .Authenticated, ["bob"], [], []⟩).relayState =
        RelayState.NotAuthenticated ∧
    getRelayConnectedPeers (wsOnClosed ⟨.Connected, .Authenticated, ["bob"], [], []⟩) =
        ["bob"] := by decide

/-- C9 (amended): when the signaling socket closes, the client sets the
connection state to `Disconnected` and the relay state to
`NotAuthenticated` but leaves the relay-peers set and the peer bookkeeping
unchanged; only the explicit `disconnect()` call clears them (and sets the
same two states), after which `getRelayConnectedPeers` returns the empty
list. -/
theorem C9_socket_loss_states_only (c : ClientState) :
    (wsOnClosed c).state = ConnectionState.Disconnected ∧
    (wsOnClosed c).relayState = RelayState.NotAuthenticated ∧
    (wsOnClosed c).relayPeers = c.relayPeers ∧
    (wsOnClosed c).peerConnections = c.peerConnections ∧
    (wsOnClosed c).dataChannels = c.dataChannels ∧
    (clientDisconnect c).state = ConnectionState.Disconnected ∧
    (clientDisconnect c).relayState = RelayState.NotAuthenticated ∧
    getRelayConnectedPeers (clientDisconnect c) = [] ∧
    (clientDisconnect c).peerConnections = [] ∧
    (clientDisconnect c).dataChannels = [] := by
  simp [wsOnClosed, clientDisconnect, getRelayConnectedPeers]

end P2P

namespace P2P

/-! ## Helper lemmas: `removeClient` -/

theorem foldl_rgErase (l : List RelayPair) (g : RelayGraph) :
    l.foldl rgErase g =
      g.filter (fun q => !(l.any (fun p => decide (RelayPair.equiv q p)))) := by
  induction l generalizing g with
  | nil => simp
  | cons p t ih =>
    rw [List.foldl_cons, ih]
    unfold rgErase
    rw [List.filter_filter]
    apply List.filter_congr
    intro q hq
    cases hqp : decide (RelayPair.equiv q p) <;> simp [List.any_cons, hqp]

/-- Two pairs that both contain `x` and agree on the other endpoint are
equivalent under the set comparator. -/
theorem equiv_of_same_other {p q : RelayPair} (x : String)
    (hp : p.contains x = true) (hq : q.contains x = true)
    (ho : p.getOther x = q.getOther x) : RelayPair.equiv p q := by
  rw [RelayPair.equiv_iff]
  simp only [RelayPair.contains, Bool.or_eq_true, decide_eq_true_eq] at hp hq
  unfold RelayPair.getOther at ho
  by_cases a1 : p.peer1 = x <;> by_cases b1 : q.peer1 = x
  · rw [if_pos a1, if_pos b1] at ho
    rw [a1, b1, ho]
    exact ⟨rfl, rfl⟩
  · rw [if_pos a1, if_neg b1] at ho
    have hq2 : q.peer2 = x := hq.resolve_left b1
    rw [a1, ho, hq2]
    exact ⟨min_comm _ _, max_comm _ _⟩
  · rw [if_neg a1, if_pos b1] at ho
    have hp2 : p.peer2 = x := hp.resolve_left a1
    rw [hp2, ho, b1]
    exact ⟨min_comm _ _, max_comm _ _⟩
  · rw [if_neg a1, if_neg b1] at ho
    have hp2 : p.peer2 = x := hp.resolve_left a1
    have hq2 : q.peer2 = x := hq.resolve_left b1
    rw [hp2, ho, hq2]
    exact ⟨rfl, rfl⟩

theorem length_filter_filterMap_eq_one {α β : Type} [DecidableEq β]
    (f : α → Option β) (b : β) (l : List α) (hnd : l.Nodup) (a : α)
    (ha : a ∈ l) (hfa : f a = some b)
    (huniq : ∀ a' ∈ l, f a' = some b → a' = a) :
    ((l.filterMap f).filter (fun y => decide (y = b))).length = 1 := by
  induction l with
  | nil => cases ha
  | cons hd t ih =>
    cases hhd : f hd with
    | none =>
      simp only [List.filterMap_cons, hhd]
      rcases List.mem_cons.mp ha with rfl | hat
      · rw [hhd] at hfa
        cases hfa
      · exact ih hnd.of_cons hat
          (fun a' ha' hf => huniq a' (List.mem_cons_of_mem _ ha') hf)
    | some c =>
      simp only [List.filterMap_cons, hhd]
      by_cases hcb : c = b
      · subst hcb
        have hhda : hd = a := huniq hd (List.mem_cons_self _ _) hhd
        have hzero : (t.filterMap f).filter (fun y => decide (y = c)) = [] := by
          rw [List.filter_eq_nil_iff]
          intro y hmem
          rw [List.mem_filterMap] at hmem
          obtain ⟨a', ha', hf'⟩ := hmem
          simp only [decide_eq_true_eq]
          intro hyc
          rw [hyc] at hf'
          have e1 : a' = a := huniq a' (List.mem_cons_of_mem _ ha') hf'
          rw [e1, ← hhda] at ha'
          exact (List.nodup_cons.mp hnd).1 ha'
        rw [List.filter_cons_of_pos (by simp), hzero]
        rfl
      · rw [List.filter_cons_of_neg (by simp [hcb])]
        rcases List.mem_cons.mp ha with rfl | hat
        · rw [hhd] at hfa
          injection hfa with hfa
          exact absurd hfa hcb
        · exact ih hnd.of_cons hat
            (fun a' ha' hf => huniq a' (List.mem_cons_of_mem _ ha') hf)

end P2P

namespace P2P

/-- C2: when the connection bound to identity `x` closes, `removeClient`
removes every relay-graph pair containing `x` (and only those), removes
`x` from the directory, every frame it sends is a `relay_disconnect`
stamped `from := x`, and — provided the relay graph satisfies the
`std::set` invariant of holding no two equivalent pairs — the other
endpoint of each removed pair that is still in the directory is sent
exactly one such envelope. -/
theorem C2_cleanup (s : ServerState) (x : String)
    (hinv : s.relayConnections.Pairwise (fun p q => ¬ RelayPair.equiv p q)) :
    (∀ p ∈ (removeClient s x).1.relayConnections, p.contains x = false) ∧
    (removeClient s x).1.relayConnections =
      s.relayConnections.filter (fun p => !(p.contains x)) ∧
    (removeClient s x).1.clients = mapErase s.clients x ∧
    (∀ o ∈ (removeClient s x).2,
      o.2.type = MessageType.RelayDisconnect ∧ o.2.from_ = x) ∧
    (∀ p ∈ s.relayConnections, p.contains x = true →
      ∀ info, mapFind s.clients (p.getOther x) = some info →
        ((removeClient s x).2.filter (fun o =>
          decide (o = (info.ws,
            { type := .RelayDisconnect, from_ := x, to_ := p.getOther x })))).length = 1) := by
  have egraph : (removeClient s x).1.relayConnections =
      (s.relayConnections.filter (fun p => p.contains x)).foldl rgErase
        s.relayConnections := rfl
  have eouts : (removeClient s x).2 =
      (s.relayConnections.filter (fun p => p.contains x)).filterMap
        (fun p => match mapFind s.clients (p.getOther x) with
          | some otherInfo =>
              some (otherInfo.ws,
                ({ type := .RelayDisconnect, from_ := x,
                   to_ := p.getOther x } : SignalingMessage))
          | none => none) := rfl
  have hfilter : (removeClient s x).1.relayConnections =
      s.relayConnections.filter (fun p => !(p.contains x)) := by
    rw [egraph, foldl_rgErase]
    apply List.filter_congr
    intro q hq
    by_cases hc : q.contains x = true
    · have hany : (s.relayConnections.filter (fun p => p.contains x)).any
          (fun p => decide (RelayPair.equiv q p)) = true := by
        simp only [List.any_eq_true, List.mem_filter]
        exact ⟨q, ⟨hq, hc⟩, by simp [RelayPair.equiv_refl]⟩
      simp [hany, hc]
    · have hany : (s.relayConnections.filter (fun p => p.contains x)).any
          (fun p => decide (RelayPair.equiv q p)) = false := by
        rw [Bool.eq_false_iff]
        intro hany
        simp only [List.any_eq_true, List.mem_filter, decide_eq_true_eq] at hany
        obtain ⟨p, ⟨-, hpc⟩, hqp⟩ := hany
        exact hc (RelayPair.contains_of_equiv hqp x hpc)
      simp [hany, hc]
  refine ⟨?_, hfilter, rfl, ?_, ?_⟩
  · intro p hp
    rw [hfilter] at hp
    have := (List.mem_filter.mp hp).2
    simpa using this
  · intro o ho
    rw [eouts] at ho
    rw [List.mem_filterMap] at ho
    obtain ⟨p, hp, hf⟩ := ho
    cases hm : mapFind s.clients (p.getOther x) <;> rw [hm] at hf
    · cases hf
    · injection hf with hf
      rw [← hf]
      exact ⟨rfl, rfl⟩
  · intro p hp hcont info hfind
    rw [eouts]
    have hpw : (s.relayConnections.filter (fun p => p.contains x)).Pairwise
        (fun p q => ¬ RelayPair.equiv p q) := hinv.filter _
    have hnd : (s.relayConnections.filter (fun p => p.contains x)).Nodup :=
      hpw.imp (fun h heq => h (by rw [heq]; exact RelayPair.equiv_refl _))
    have hfa : (fun q : RelayPair =>
        match mapFind s.clients (q.getOther x) with
        | some otherInfo =>
            some (otherInfo.ws,
              ({ type := .RelayDisconnect, from_ := x,
                 to_ := q.getOther x } : SignalingMessage))
        | none => none) p =
          some (info.ws,
            { type := .RelayDisconnect, from_ := x, to_ := p.getOther x }) := by
      simp [hfind]
    refine length_filter_filterMap_eq_one (β := Nat × SignalingMessage)
      _ _ _ hnd p (List.mem_filter.mpr ⟨hp, hcont⟩) hfa ?_
    intro q hq hfq
    have hqcont : q.contains x = true := by
      simpa using (List.mem_filter.mp hq).2
    cases hm : mapFind s.clients (q.getOther x) <;> rw [hm] at hfq
    · cases hfq
    · simp only [Option.some.injEq, Prod.mk.injEq, SignalingMessage.mk.injEq] at hfq
      have hother : q.getOther x = p.getOther x := hfq.2.2.2.1
      have hequiv : RelayPair.equiv q p :=
        equiv_of_same_other x hqcont hcont hother
      by_contra hne
      have hsymm : Symmetric (fun p q : RelayPair => ¬ RelayPair.equiv p q) := by
        intro a b h he
        exact h (RelayPair.equiv_symm he)
      exact (hpw.forall hsymm hq (List.mem_filter.mpr ⟨hp, hcont⟩) hne) hequiv

theorem C2_witness :
    ((removeClient ⟨[("a", ⟨0, "a", false⟩), ("b", ⟨1, "b", false⟩)],
        [⟨"a", "b"⟩], 0, ""⟩ "a").2.filter (fun o =>
      decide (o = ((1 : Nat),
        ({ type := .RelayDisconnect, from_ := "a",
           to_ := RelayPair.getOther ⟨"a", "b"⟩ "a" } : SignalingMessage))))).length = 1 :=
  (C2_cleanup ⟨[("a", ⟨0, "a", false⟩), ("b", ⟨1, "b", false⟩)],
      [⟨"a", "b"⟩], 0, ""⟩ "a" (by decide)).2.2.2.2 ⟨"a", "b"⟩ (by decide) (by decide)
    ⟨1, "b", false⟩ (by decide)

end P2P

namespace P2P

/-! ## Helper lemmas: base64 -/

theorem tbl_inverse : ∀ v < 64, decodeTableAt (b64char v) = (v : Int) := by decide

theorem b64char_ne_61 : ∀ v < 64, b64char v ≠ 61 := by decide

theorem mask63_eq_mod (n : Nat) : n &&& 63 = n % 64 :=
  Nat.and_pow_two_sub_one_eq_mod n 6

theorem mask255_eq_mod (n : Nat) : n &&& 255 = n % 256 :=
  Nat.and_pow_two_sub_one_eq_mod n 8

theorem decodeLoop_cons_61 (rest : List Nat) (val : Nat) (valb : Int)
    (acc : List Nat) : decodeLoop (61 :: rest) val valb acc = acc := by
  unfold decodeLoop
  simp

/-- One `decodeLoop` step on an alphabet character. -/
theorem decodeLoop_step (v : Nat) (hv : v < 64) (rest : List Nat)
    (val : Nat) (valb : Int) (acc : List Nat) :
    decodeLoop (b64char v :: rest) val valb acc =
      if valb + 6 ≥ 0 then
        decodeLoop rest (((val <<< 6) + v) % 4294967296) (valb + 6 - 8)
          (acc ++ [((((val <<< 6) + v) % 4294967296) >>> (valb + 6).toNat) &&& 255])
      else
        decodeLoop rest (((val <<< 6) + v) % 4294967296) (valb + 6) acc := by
  have h61 : ¬ (b64char v = 61) := b64char_ne_61 v hv
  have htbl : decodeTableAt (b64char v) = (v : Int) := tbl_inverse v hv
  have hne : ¬ ((v : Int) = -1) := by omega
  conv_lhs => rw [decodeLoop]
  rw [if_neg h61, htbl]
  rw [if_neg hne]
  simp only [Int.toNat_natCast]

/-- One `decodeCore` step on an alphabet character. -/
theorem decodeCore_step (v : Nat) (hv : v < 64) (rest : List Nat)
    (val : Nat) (valb : Int) (acc : List Nat) :
    decodeCore (b64char v :: rest) val valb acc =
      if valb + 6 ≥ 0 then
        decodeCore rest (((val <<< 6) + v) % 4294967296) (valb + 6 - 8)
          (acc ++ [((((val <<< 6) + v) % 4294967296) >>> (valb + 6).toNat) &&& 255])
      else
        decodeCore rest (((val <<< 6) + v) % 4294967296) (valb + 6) acc := by
  have htbl : decodeTableAt (b64char v) = (v : Int) := tbl_inverse v hv
  conv_lhs => rw [decodeCore]
  rw [htbl]
  simp only [Int.toNat_natCast]

end P2P

namespace P2P

theorem b64_byte1 (a b c val : Nat) (ha : a < 256) (hb : b < 256) (hc : c < 256) :
    ((((val <<< 6 + ((a <<< 16 + b <<< 8 + c) >>> 18 &&& 63)) % 4294967296) <<< 6 +
        ((a <<< 16 + b <<< 8 + c) >>> 12 &&& 63)) % 4294967296) >>> Int.toNat 4 &&& 255
      = a := by
  have ht : Int.toNat 4 = 4 := rfl
  simp only [ht, mask63_eq_mod, mask255_eq_mod, Nat.shiftLeft_eq,
    Nat.shiftRight_eq_div_pow]
  omega

theorem b64_byte2 (a b c val : Nat) (ha : a < 256) (hb : b < 256) (hc : c < 256) :
    ((((((val <<< 6 + ((a <<< 16 + b <<< 8 + c) >>> 18 &&& 63)) % 4294967296) <<< 6 +
          ((a <<< 16 + b <<< 8 + c) >>> 12 &&& 63)) % 4294967296) <<< 6 +
        ((a <<< 16 + b <<< 8 + c) >>> 6 &&& 63)) % 4294967296) >>> Int.toNat 2 &&& 255
      = b := by
  have ht : Int.toNat 2 = 2 := rfl
  simp only [ht, mask63_eq_mod, mask255_eq_mod, Nat.shiftLeft_eq,
    Nat.shiftRight_eq_div_pow]
  omega

theorem b64_byte3 (a b c val : Nat) (ha : a < 256) (hb : b < 256) (hc : c < 256) :
    ((((((((val <<< 6 + ((a <<< 16 + b <<< 8 + c) >>> 18 &&& 63)) % 4294967296) <<< 6 +
            ((a <<< 16 + b <<< 8 + c) >>> 12 &&& 63)) % 4294967296) <<< 6 +
          ((a <<< 16 + b <<< 8 + c) >>> 6 &&& 63)) % 4294967296) <<< 6 +
        (a <<< 16 + b <<< 8 + c &&& 63)) % 4294967296) &&& 255 = c := by
  simp only [mask63_eq_mod, mask255_eq_mod, Nat.shiftLeft_eq,
    Nat.shiftRight_eq_div_pow]
  omega

theorem decodeLoop_enc4 (a b c : Nat) (ha : a < 256) (hb : b < 256) (hc : c < 256)
    (rest : List Nat) (val : Nat) (acc : List Nat) :
    decodeLoop (enc4 a b c ++ rest) val (-8) acc =
      decodeLoop rest
        ((((((((val <<< 6 + ((a <<< 16 + b <<< 8 + c) >>> 18 &&& 63)) % 4294967296) <<< 6 +
            ((a <<< 16 + b <<< 8 + c) >>> 12 &&& 63)) % 4294967296) <<< 6 +
            ((a <<< 16 + b <<< 8 + c) >>> 6 &&& 63)) % 4294967296) <<< 6 +
            (a <<< 16 + b <<< 8 + c &&& 63)) % 4294967296)
        (-8) (acc ++ [a, b, c]) := by
  have hv1 : ((a <<< 16) + (b <<< 8) + c) >>> 18 &&& 63 < 64 :=
    Nat.lt_succ_of_le Nat.and_le_right
  have hv2 : ((a <<< 16) + (b <<< 8) + c) >>> 12 &&& 63 < 64 :=
    Nat.lt_succ_of_le Nat.and_le_right
  have hv3 : ((a <<< 16) + (b <<< 8) + c) >>> 6 &&& 63 < 64 :=
    Nat.lt_succ_of_le Nat.and_le_right
  have hv4 : ((a <<< 16) + (b <<< 8) + c) &&& 63 < 64 :=
    Nat.lt_succ_of_le Nat.and_le_right
  simp only [enc4, List.cons_append, List.nil_append]
  rw [decodeLoop_step _ hv1, if_neg (by norm_num)]
  rw [decodeLoop_step _ hv2, if_pos (by norm_num)]
  rw [decodeLoop_step _ hv3, if_pos (by norm_num)]
  rw [decodeLoop_step _ hv4, if_pos (by norm_num)]
  norm_num
  rw [b64_byte1 a b c val ha hb hc, b64_byte2 a b c val ha hb hc,
    b64_byte3 a b c val ha hb hc]

end P2P

namespace P2P

theorem encodeLoop_length_ge (l : List Nat) (h : l ≠ []) :
    4 ≤ (encodeLoop l).length := by
  match l with
  | [] => exact absurd rfl h
  | [a] => simp [encodeLoop, enc4]
  | [a, b] => simp [encodeLoop, enc4]
  | a :: b :: c :: rest =>
    rw [encodeLoop]
    simp [enc4]

theorem padPatch_append (g t : List Nat) (m : Nat) (h : 2 ≤ t.length) :
    padPatch (g ++ t) m = g ++ padPatch t m := by
  unfold padPatch
  by_cases h1 : m = 1
  · rw [if_pos h1, if_pos h1]
    rw [List.length_append, List.take_append_eq_append_take,
      List.take_of_length_le (by omega)]
    have hidx : g.length + t.length - 2 - g.length = t.length - 2 := by omega
    rw [hidx, List.append_assoc]
  · rw [if_neg h1, if_neg h1]
    by_cases h2 : m = 2
    · rw [if_pos h2, if_pos h2]
      rw [List.length_append, List.take_append_eq_append_take,
        List.take_of_length_le (by omega)]
      have hidx : g.length + t.length - 1 - g.length = t.length - 1 := by omega
      rw [hidx, List.append_assoc]
    · rw [if_neg h2, if_neg h2]

theorem base64Encode_cons3 (a b c : Nat) (rest : List Nat) :
    base64Encode (a :: b :: c :: rest) = enc4 a b c ++ base64Encode rest := by
  unfold base64Encode
  rw [encodeLoop]
  cases hr : rest with
  | nil => simp [encodeLoop, padPatch]
  | cons x t =>
    rw [← hr]
    have hlen : 2 ≤ (encodeLoop rest).length := by
      have := encodeLoop_length_ge rest (by rw [hr]; simp)
      omega
    rw [padPatch_append _ _ _ hlen]
    congr 2
    simp only [List.length_cons]
    omega

end P2P

namespace P2P

theorem decodeLoop_tail1 (a : Nat) (ha : a < 256) (val : Nat) (acc : List Nat) :
    decodeLoop (base64Encode [a]) val (-8) acc = acc ++ [a] := by
  have hv1 : (a <<< 16 + 0 <<< 8 + 0) >>> 18 &&& 63 < 64 :=
    Nat.lt_succ_of_le Nat.and_le_right
  have hv2 : (a <<< 16 + 0 <<< 8 + 0) >>> 12 &&& 63 < 64 :=
    Nat.lt_succ_of_le Nat.and_le_right
  have henc : base64Encode [a] =
      b64char ((a <<< 16 + 0 <<< 8 + 0) >>> 18 &&& 63) ::
      b64char ((a <<< 16 + 0 <<< 8 + 0) >>> 12 &&& 63) :: 61 :: [61] := rfl
  rw [henc]
  rw [decodeLoop_step _ hv1, if_neg (by norm_num)]
  rw [decodeLoop_step _ hv2, if_pos (by norm_num)]
  rw [decodeLoop_cons_61]
  norm_num
  have ht : Int.toNat 4 = 4 := rfl
  simp only [ht, mask63_eq_mod, mask255_eq_mod, Nat.shiftLeft_eq,
    Nat.shiftRight_eq_div_pow]
  omega

theorem decodeLoop_tail2 (a b : Nat) (ha : a < 256) (hb : b < 256)
    (val : Nat) (acc : List Nat) :
    decodeLoop (base64Encode [a, b]) val (-8) acc = acc ++ [a, b] := by
  have hv1 : (a <<< 16 + b <<< 8 + 0) >>> 18 &&& 63 < 64 :=
    Nat.lt_succ_of_le Nat.and_le_right
  have hv2 : (a <<< 16 + b <<< 8 + 0) >>> 12 &&& 63 < 64 :=
    Nat.lt_succ_of_le Nat.and_le_right
  have hv3 : (a <<< 16 + b <<< 8 + 0) >>> 6 &&& 63 < 64 :=
    Nat.lt_succ_of_le Nat.and_le_right
  have henc : base64Encode [a, b] =
      b64char ((a <<< 16 + b <<< 8 + 0) >>> 18 &&& 63) ::
      b64char ((a <<< 16 + b <<< 8 + 0) >>> 12 &&& 63) ::
      b64char ((a <<< 16 + b <<< 8 + 0) >>> 6 &&& 63) :: [61] := rfl
  rw [henc]
  rw [decodeLoop_step _ hv1, if_neg (by norm_num)]
  rw [decodeLoop_step _ hv2, if_pos (by norm_num)]
  rw [decodeLoop_step _ hv3, if_pos (by norm_num)]
  rw [decodeLoop_cons_61]
  norm_num
  have ht : Int.toNat 4 = 4 := rfl
  have ht2 : Int.toNat 2 = 2 := rfl
  simp only [ht, ht2, mask63_eq_mod, mask255_eq_mod, Nat.shiftLeft_eq,
    Nat.shiftRight_eq_div_pow]
  omega

end P2P

namespace P2P

theorem b64Padding_le_two (l : List Nat) : b64Padding l ≤ 2 := by
  unfold b64Padding
  split_ifs <;> norm_num

theorem base64Encode_length_ge (data : List Nat) (h : data ≠ []) :
    4 ≤ (base64Encode data).length := by
  unfold base64Encode padPatch
  have h4 := encodeLoop_length_ge data h
  split_ifs <;> simp [List.length_take] <;> omega

theorem base64Encode_no_underflow (data : List Nat) :
    ¬ ((base64Encode data).length / 4 * 3 < b64Padding (base64Encode data)) := by
  by_cases h : data = []
  · subst h
    decide
  · have h4 := base64Encode_length_ge data h
    have h2 := b64Padding_le_two (base64Encode data)
    omega

theorem decodeLoop_encode (n : Nat) : ∀ (data : List Nat), data.length ≤ n →
    (∀ x ∈ data, x < 256) → ∀ (val : Nat) (acc : List Nat),
    decodeLoop (base64Encode data) val (-8) acc = acc ++ data := by
  induction n with
  | zero =>
    intro data hlen _ val acc
    have hnil : data = [] := List.length_eq_zero.mp (Nat.le_zero.mp hlen)
    subst hnil
    simp [base64Encode, encodeLoop, padPatch, decodeLoop]
  | succ n ih =>
    intro data hlen hb val acc
    rcases data with _ | ⟨a, _ | ⟨b, _ | ⟨c, rest⟩⟩⟩
    · simp [base64Encode, encodeLoop, padPatch, decodeLoop]
    · exact decodeLoop_tail1 a (hb a (by simp)) val acc
    · exact decodeLoop_tail2 a b (hb a (by simp)) (hb b (by simp)) val acc
    · rw [base64Encode_cons3]
      rw [decodeLoop_enc4 a b c (hb a (by simp)) (hb b (by simp)) (hb c (by simp))]
      have hlen' : rest.length ≤ n := by
        simp only [List.length_cons] at hlen
        omega
      rw [ih rest hlen' (fun x hx => hb x (by simp [hx])) _ (acc ++ [a, b, c])]
      simp

/-- C6: the base64 round trip over the relay binary path is the identity —
for every byte sequence `data` (all values `< 256`), decoding the string
produced by `base64Encode` returns exactly `data`, including for lengths
that are not multiples of 3. -/
theorem C6_base64_roundtrip (data : List Nat) (h : ∀ x ∈ data, x < 256) :
    base64Decode (base64Encode data) = some data := by
  unfold base64Decode
  rw [if_neg (base64Encode_no_underflow data)]
  rw [decodeLoop_encode data.length data le_rfl h 0 []]
  simp

theorem C6_witness :
    base64Decode (base64Encode [72, 101, 108, 108, 111]) =
      some [72, 101, 108, 108, 111] :=
  C6_base64_roundtrip [72, 101, 108, 108, 111] (by decide)

end P2P

namespace P2P

/-- `decodeLoop` equals `decodeCore` on the input truncated at the first
`'='` and filtered to the alphabet: the loop stops at the first `'='` and
skips every character outside the base64 alphabet. -/
theorem decodeLoop_eq_core (cs : List Nat) : ∀ (val : Nat) (valb : Int)
    (acc : List Nat),
    decodeLoop cs val valb acc =
      decodeCore ((cs.takeWhile (fun c => c != 61)).filter b64Valid) val valb acc := by
  induction cs with
  | nil => intro val valb acc; rfl
  | cons c rest ih =>
    intro val valb acc
    by_cases h61 : c = 61
    · subst h61
      rw [decodeLoop_cons_61]
      simp only [List.takeWhile_cons]
      rw [if_neg (by simp)]
      rfl
    · by_cases hv : decodeTableAt c = -1
      · have hstep : decodeLoop (c :: rest) val valb acc =
            decodeLoop rest val valb acc := by
          conv_lhs => rw [decodeLoop]
          rw [if_neg h61, if_pos hv]
        rw [hstep, ih]
        simp only [List.takeWhile_cons]
        rw [if_pos (by simp [h61])]
        rw [List.filter_cons_of_neg (by simp [b64Valid, hv])]
      · conv_lhs => rw [decodeLoop]
        rw [if_neg h61, if_neg hv]
        simp only [List.takeWhile_cons]
        rw [if_pos (show (c != 61) = true by simp [h61])]
        rw [List.filter_cons_of_pos (by simp [b64Valid, hv])]
        conv_rhs => rw [decodeCore]
        by_cases hvb : valb + 6 ≥ 0
        · rw [if_pos hvb, if_pos hvb]
          exact ih _ _ _
        · rw [if_neg hvb, if_neg hvb]
          exact ih _ _ _

/-- C10 counterexample: on the one-character input `"="` the decoder's
`outLen = (1 / 4) * 3 - padding` computation underflows `size_t`, so
`result.reserve(outLen)` throws `std::length_error` (modelled as `none`):
`base64Decode` does not return a byte vector on every short `'='`-padded
string. -/
theorem C10_counterexample : base64Decode [61] = none := by decide

/-- C10 (amended): `base64Decode` returns a byte vector without throwing on
every input whose computed padding does not exceed `(length / 4) * 3`; on
such inputs it processes the input truncated at the first `'='` with every
character outside the base64 alphabet skipped.  When the padding exceeds
`(length / 4) * 3` (only possible for inputs shorter than four characters
ending in `'='` material), the `size_t` length computation underflows and
the `reserve` call throws. -/
theorem C10_decode_totality (s : List Nat) :
    (b64Padding s ≤ s.length / 4 * 3 →
      base64Decode s =
        some (decodeCore ((s.takeWhile (fun c => c != 61)).filter b64Valid)
          0 (-8) [])) ∧
    (s.length / 4 * 3 < b64Padding s → base64Decode s = none) := by
  constructor
  · intro h
    unfold base64Decode
    rw [if_neg (by omega), decodeLoop_eq_core]
  · intro h
    unfold base64Decode
    rw [if_pos h]

theorem C10_witness :
    base64Decode [83, 71, 86, 115, 98, 71, 56, 61] =
      some (decodeCore (([83, 71, 86, 115, 98, 71, 56, 61].takeWhile
        (fun c => c != 61)).filter b64Valid) 0 (-8) []) :=
  (C10_decode_totality [83, 71, 86, 115, 98, 71, 56, 61]).1 (by decide)

end P2P
